import Mathlib

/-!
Verification of the claude-tasks sync/reconciliation engine.

This file shallowly embeds the Rust sources of the claude-tasks plugin
(`claude_task.rs`, `commands.rs`, `hierarchy.rs`, `staleness.rs`,
`discovery.rs`, `sync.rs`, `guidance.rs`, `state.rs`, and the event loop of
`lib.rs`) into Lean and proves or refutes the frozen specification claims.

Modelling conventions:
- Rust `String` is Lean `String`; machine integers that matter (the u32 task
  id sort key) are `Nat` with an explicit `2 ^ 32` bound.
- Filesystem reads and JSON parsing are fallible IO; they are embedded as
  `Option` values carried by an explicit environment (`Env`): a directory is
  `Option (List DirEntry)` (`none` = the directory does not exist) and a file
  read-and-parse is `Path → Option ClaudeTask`.
- `HashSet`/`HashMap` are embedded as lists with insert-if-absent /
  insert-with-override, which matches the source because only membership and
  lookup are observed.
- Rust's stable `sort_by` is embedded as `List.mergeSort` (also a stable
  merge sort, hence extensionally identical for equal keys).
- Imperative push/extend loops are rendered as `map` / `flatMap` / explicit
  recursion that concatenates the per-iteration output in iteration order.
-/

namespace ClaudeTasks

/-- Visual state of a mirrored todo item (`FfiTodoState` from the plugin
interface crate; only the constructors used by this plugin are modelled). -/
inductive FfiTodoState where
  | Empty
  | InProgress
  | Checked
  | Question
  | Exclamation
  deriving DecidableEq

/-- A task record parsed from one on-disk JSON file (`ClaudeTask` in
`claude_task.rs`). -/
structure ClaudeTask where
  id : String
  subject : String
  description : String
  active_form : String
  status : String
  blocks : List String
  blocked_by : List String
  deriving DecidableEq

/-- A mirrored todo item as returned by the downstream store
(`FfiTodoItem`); only the fields read by the sync code are modelled. -/
structure FfiTodoItem where
  id : String
  content : String
  state : FfiTodoState
  deriving DecidableEq

/-- Mirror operation (`FfiCommand`); fields that the plugin always passes as
`RNone` (priority, due date, description) are omitted. -/
inductive FfiCommand where
  | CreateTodo (content : String) (parent_id : Option String)
      (temp_id : Option String) (state : FfiTodoState) (indent_level : Nat)
  | SetTodoMetadata (todo_id : String) (data : String) (merge : Bool)
  | UpdateTodo (id : String) (content : Option String)
      (state : Option FfiTodoState)
  | DeleteTodo (id : String)
  deriving DecidableEq

/-- `map_status_to_state` from `claude_task.rs`: the Rust `match` on `&str`
is an equality chain. -/
def map_status_to_state (status : String) : FfiTodoState :=
  if status = "pending" then FfiTodoState.Empty
  else if status = "in_progress" then FfiTodoState.InProgress
  else if status = "completed" then FfiTodoState.Checked
  else FfiTodoState.Empty

/-- `header_id` from `commands.rs`: `format!("claude-header-{}", tasklist_id)`. -/
def header_id (tasklist_id : String) : String :=
  "claude-header-" ++ tasklist_id

/-- `task_todo_id` from `commands.rs`: `format!("claude-{}-{}", tasklist_id, task_id)`. -/
def task_todo_id (tasklist_id task_id : String) : String :=
  "claude-" ++ tasklist_id ++ "-" ++ task_id

/-- `format_task_content` from `commands.rs`: just the subject. -/
def format_task_content (task : ClaudeTask) : String :=
  task.subject

/-- `build_metadata_json` from `commands.rs`. -/
def build_metadata_json (tasklist_id task_id : String)
    (blocked_by : List String) : String :=
  let blocked_by_json :=
    if blocked_by.isEmpty then "[]"
    else "[" ++ String.intercalate ","
      (blocked_by.map (fun id => "\"" ++ id ++ "\"")) ++ "]"
  "\x7b\"source\":\"claude-tasks\",\"tasklist_id\":\"" ++ tasklist_id ++
    "\",\"task_id\":\"" ++ task_id ++ "\",\"read_only\":true,\"blocked_by\":" ++
    blocked_by_json ++ "\x7d"

/-- `create_header_command` from `commands.rs`. -/
def create_header_command (tasklist_id : String)
    (display_name : Option String) : FfiCommand :=
  let name := display_name.getD tasklist_id
  FfiCommand.CreateTodo ("CLAUDE TASKLIST: " ++ name) none
    (some ("claude-header-" ++ tasklist_id)) FfiTodoState.Empty 0

/-- `create_todo_commands` from `commands.rs`: a CreateTodo followed by a
SetTodoMetadata, both addressed by the deterministic temp id. -/
def create_todo_commands (task : ClaudeTask) (tasklist_id hdr_id : String) :
    List FfiCommand :=
  let temp_id := "claude-" ++ tasklist_id ++ "-" ++ task.id
  let content := format_task_content task
  let create_cmd := FfiCommand.CreateTodo content (some hdr_id) (some temp_id)
    (map_status_to_state task.status) 1
  let metadata := build_metadata_json tasklist_id task.id task.blocked_by
  let metadata_cmd := FfiCommand.SetTodoMetadata temp_id metadata false
  [create_cmd, metadata_cmd]

/-- `update_todo_command` from `commands.rs`. -/
def update_todo_command (task : ClaudeTask) (existing_todo_id : String) :
    FfiCommand :=
  FfiCommand.UpdateTodo existing_todo_id (some (format_task_content task))
    (some (map_status_to_state task.status))

/-- `delete_todo_command` from `commands.rs`. -/
def delete_todo_command (todo_id : String) : FfiCommand :=
  FfiCommand.DeleteTodo todo_id

/-- `update_header_command` from `commands.rs`. -/
def update_header_command (tasklist_id : String) (display_name : Option String)
    (staleness : Option String) : FfiCommand :=
  let name := display_name.getD tasklist_id
  let content :=
    match staleness with
    | some duration => "CLAUDE TASKLIST: " ++ name ++ " ⏰ STALE (" ++ duration ++ ")"
    | none => "CLAUDE TASKLIST: " ++ name
  FfiCommand.UpdateTodo (header_id tasklist_id) (some content) none

/-- Insert into a list-modelled `HashSet`: no-op when already present. -/
def insertIfAbsent (x : String) (s : List String) : List String :=
  if s.contains x then s else x :: s

/-- Insert into a list-modelled `HashMap`: a later insert overrides an
earlier binding for the same key. -/
def assocInsert {β : Type} (m : List (String × β)) (k : String) (v : β) :
    List (String × β) :=
  match m with
  | [] => [(k, v)]
  | (k', v') :: rest =>
      if k' = k then (k, v) :: rest else (k', v') :: assocInsert rest k v

/-- Lookup in a list-modelled `HashMap`. -/
def assocLookup {β : Type} (m : List (String × β)) (k : String) : Option β :=
  (m.find? (fun p => p.1 = k)).map Prod.snd

/-- `TaskHierarchy` from `hierarchy.rs`: per-task annotations plus the set of
cyclic task ids. -/
structure TaskHierarchy where
  annotations : List (String × String)
  cyclic_tasks : List String
  deriving DecidableEq

/-- `TaskHierarchy::get_annotation` (renamed: `annotation_for`). -/
def TaskHierarchy.annotation_for (h : TaskHierarchy) (task_id : String) :
    Option String :=
  assocLookup h.annotations task_id

/-- `TaskHierarchy::is_cyclic`. -/
def TaskHierarchy.is_cyclic (h : TaskHierarchy) (task_id : String) : Bool :=
  h.cyclic_tasks.contains task_id

/-- `dfs_cycle` from `hierarchy.rs`. The Rust recursion terminates because
the visited set grows on every recursive call; here the same recursion is
driven by a fuel counter that `detect_cycles` makes large enough (one unit
per possible distinct visited node plus one). The accumulator triple is
(visited, in_stack, cyclic). On a back edge (neighbor visited and on the
stack) both the current node and that neighbor are inserted into `cyclic`;
on return the node is removed from `in_stack`. -/
def dfs_cycle (fuel : Nat) (node : String) (adj : List (String × List String))
    (acc : List String × List String × List String) :
    List String × List String × List String :=
  match fuel with
  | 0 => acc
  | fuel' + 1 =>
    let visited := insertIfAbsent node acc.1
    let in_stack := insertIfAbsent node acc.2.1
    let after :=
      match assocLookup adj node with
      | none => (visited, in_stack, acc.2.2)
      | some neighbors =>
        neighbors.foldl
          (fun (a : List String × List String × List String) neighbor =>
            if a.1.contains neighbor then
              if a.2.1.contains neighbor then
                (a.1, a.2.1, insertIfAbsent neighbor (insertIfAbsent node a.2.2))
              else a
            else dfs_cycle fuel' neighbor adj a)
          (visited, in_stack, acc.2.2)
    (after.1, after.2.1.erase node, after.2.2)

/-- Fuel bound for `dfs_cycle`: recursion depth is at most the number of
distinct node names reachable, which is bounded by the task count plus the
total length of all blocker lists. -/
def dfs_fuel (tasks : List ClaudeTask) : Nat :=
  tasks.length + (tasks.map (fun t => t.blocked_by.length)).sum + 1

/-- `detect_cycles` from `hierarchy.rs`: DFS with three-colouring over every
task; returns the set of task ids marked cyclic. -/
def detect_cycles (tasks : List ClaudeTask) : List String :=
  let adj := tasks.foldl (fun m t => assocInsert m t.id t.blocked_by) []
  let final := tasks.foldl
    (fun (a : List String × List String × List String) t =>
      if a.1.contains t.id then a else dfs_cycle (dfs_fuel tasks) t.id adj a)
    ([], [], [])
  final.2.2

/-- `build_hierarchy` from `hierarchy.rs`: cyclic tasks get the circular
dependency warning; otherwise a non-empty blocker list whose ids resolve to
known tasks yields a "(blocked by: ...)" annotation listing the blocker
subjects in blocker-list order. -/
def build_hierarchy (tasks : List ClaudeTask) : TaskHierarchy :=
  let task_map := tasks.foldl (fun m t => assocInsert m t.id t) []
  let cyclic := detect_cycles tasks
  let anns := tasks.foldl
    (fun (ann : List (String × String)) task =>
      if cyclic.contains task.id then
        assocInsert ann task.id "⚠ Circular dependency"
      else if task.blocked_by.isEmpty then ann
      else
        let names := task.blocked_by.filterMap
          (fun id => (assocLookup task_map id).map (fun t => t.subject))
        if names.isEmpty then ann
        else assocInsert ann task.id
          ("(blocked by: " ++ String.intercalate ", " names ++ ")"))
    []
  TaskHierarchy.mk anns cyclic

/-- `create_todo_commands_with_hierarchy` from `commands.rs`. -/
def create_todo_commands_with_hierarchy (task : ClaudeTask)
    (tasklist_id hdr_id : String) (hierarchy : TaskHierarchy) :
    List FfiCommand :=
  let temp_id := "claude-" ++ tasklist_id ++ "-" ++ task.id
  let content :=
    match TaskHierarchy.annotation_for hierarchy task.id with
    | some ann =>
        if TaskHierarchy.is_cyclic hierarchy task.id then
          ann ++ " " ++ task.subject
        else "🔒 " ++ task.subject ++ " " ++ ann
    | none => task.subject
  let create_cmd := FfiCommand.CreateTodo content (some hdr_id) (some temp_id)
    (map_status_to_state task.status) 1
  let metadata := build_metadata_json tasklist_id task.id task.blocked_by
  let metadata_cmd := FfiCommand.SetTodoMetadata temp_id metadata false
  [create_cmd, metadata_cmd]

/-- `StalenessTracker` from `staleness.rs`. Instants are modelled as `Nat`
nanosecond timestamps on a monotonic clock; a `Duration` is a `Nat` number of
nanoseconds. -/
structure StalenessTracker where
  last_update : Option Nat
  threshold : Nat
  deriving DecidableEq

/-- `StalenessTracker::new`: threshold is `Duration::from_secs(minutes * 60)`,
i.e. `minutes * 60` seconds in nanoseconds. -/
def StalenessTracker.new (threshold_minutes : Nat) : StalenessTracker :=
  StalenessTracker.mk none (threshold_minutes * 60 * 1000000000)

/-- `StalenessTracker::record_update` at monotonic instant `now`. -/
def record_update (now : Nat) (t : StalenessTracker) : StalenessTracker :=
  StalenessTracker.mk (some now) t.threshold

/-- `StalenessTracker::check_staleness` evaluated at monotonic instant `now`
(on a monotonic clock `now` is at least the recorded instant; elapsed time is
their difference): stale with the elapsed duration once elapsed strictly
exceeds the threshold, otherwise fresh; `none` while untracked. -/
def check_staleness (now : Nat) (t : StalenessTracker) : Option Nat :=
  t.last_update.bind (fun instant =>
    let elapsed := now - instant
    if elapsed > t.threshold then some elapsed else none)

/-- `format_duration` from `staleness.rs` (duration in nanoseconds). -/
def format_duration (duration : Nat) : String :=
  let total_minutes := duration / 1000000000 / 60
  if total_minutes < 60 then toString total_minutes ++ "m"
  else
    let hours := total_minutes / 60
    let minutes := total_minutes % 60
    if minutes = 0 then toString hours ++ "h"
    else toString hours ++ "h" ++ toString minutes ++ "m"

/-- One directory entry as the Source Reader sees it (`discovery.rs`):
whether the file name has the `json` extension, and the result of reading and
parsing it as a `ClaudeTask` (`none` when the read or the parse fails). -/
structure DirEntry where
  is_json : Bool
  parsed : Option ClaudeTask

/-- Rust `str::parse::<u32>()`: optional leading `+`, then decimal digits,
value below `2 ^ 32`; anything else is an error. -/
def rust_parse_u32 (s : String) : Option Nat :=
  let body := if s.startsWith "+" then s.drop 1 else s
  match body.toNat? with
  | some n => if n < 2 ^ 32 then some n else none
  | none => none

/-- Sort key used by `scan_tasks_directory`:
`id.parse::<u32>().unwrap_or(0)`. -/
def sort_key (id : String) : Nat :=
  (rust_parse_u32 id).getD 0

/-- Boolean comparison handed to the stable sort in
`scan_tasks_directory`. -/
def task_le (a b : ClaudeTask) : Bool :=
  decide (sort_key a.id ≤ sort_key b.id)

/-- The well-formed records of a directory listing: non-`.json` entries and
entries whose read or parse fails are skipped. -/
def well_formed_tasks (entries : List DirEntry) : List ClaudeTask :=
  entries.filterMap (fun e => if e.is_json then e.parsed else none)

/-- `scan_tasks_directory` from `discovery.rs`: `none` (non-existent
directory, `read_dir` fails) yields the empty list; otherwise the well-formed
records sorted stably by ascending numeric id (Rust's stable `sort_by` is
embedded as the stable `List.mergeSort`). -/
def scan_tasks_directory (dir : Option (List DirEntry)) : List ClaudeTask :=
  match dir with
  | none => []
  | some entries => (well_formed_tasks entries).mergeSort task_le

/-- A filesystem path as observed by the incremental sync code: only
`file_stem().and_then(|s| s.to_str())` is ever consulted. -/
structure Path where
  stem : Option String
  deriving DecidableEq

/-- `extract_task_id_from_path` from `sync.rs`. -/
def extract_task_id_from_path (path : Path) : Option String :=
  path.stem

/-- `needs_update` from `sync.rs`: state mismatch or content (subject)
mismatch forces an update. -/
def needs_update (task : ClaudeTask) (existing : FfiTodoItem) : Bool :=
  if existing.state ≠ map_status_to_state task.status then true
  else if existing.content ≠ task.subject then true
  else false

/-- The IO environment of the sync engine: the listing of the selected
tasklist directory, the read-and-parse of a task file, the downstream-store
query `find_todo_by_task_id` (tasklist id, task id), the config alias lookup,
and the current monotonic instant. -/
structure Env where
  dir : Option (List DirEntry)
  read_task : Path → Option ClaudeTask
  find_todo : String → String → Option FfiTodoItem
  get_alias : String → Option String
  now : Nat

/-- `process_file_change` from `sync.rs` (the HostApi-backed change path):
extract the task id from the filename stem, read and parse the record, query
the downstream store for an existing mirrored todo; update only when
`needs_update`, create when no existing todo is found. -/
def process_file_change (env : Env) (file_path : Path) (tasklist_id : String) :
    List FfiCommand :=
  match extract_task_id_from_path file_path with
  | none => []
  | some task_id =>
    match env.read_task file_path with
    | none => []
    | some task =>
      let hdr_id := header_id tasklist_id
      match env.find_todo tasklist_id task_id with
      | some todo =>
          if needs_update task todo then [update_todo_command task todo.id]
          else []
      | none => create_todo_commands task tasklist_id hdr_id

/-- `process_initial_scan_local` from `sync.rs`: scan the directory, build
the hierarchy, emit the header followed by hierarchy-aware create commands
for every record; return the commands and the scanned task ids. -/
def process_initial_scan_local (dir : Option (List DirEntry))
    (tasklist_id : String) (aliasName : Option String) :
    List FfiCommand × List String :=
  let claude_tasks := scan_tasks_directory dir
  let hierarchy := build_hierarchy claude_tasks
  let hdr_id := header_id tasklist_id
  let commands := create_header_command tasklist_id aliasName ::
    claude_tasks.flatMap
      (fun task => create_todo_commands_with_hierarchy task tasklist_id hdr_id hierarchy)
  (commands, claude_tasks.map (fun t => t.id))

/-- `process_file_change_local` from `sync.rs`: for a known id emit a single
update addressed by the deterministic todo id, for a new id emit the create
commands; `none` when the stem is missing or the read/parse fails. -/
def process_file_change_local (env : Env) (file_path : Path)
    (tasklist_id : String) (is_known : Bool) :
    Option (List FfiCommand × String) := do
  let task_id ← extract_task_id_from_path file_path
  let task ← env.read_task file_path
  let hdr_id := header_id tasklist_id
  let commands :=
    if is_known then [update_todo_command task (task_todo_id tasklist_id task_id)]
    else create_todo_commands task tasklist_id hdr_id
  some (commands, task_id)

/-- `process_file_removal_local` from `sync.rs`: delete addressed by the
deterministic todo id derived from the filename stem; no state is
consulted. -/
def process_file_removal_local (file_path : Path) (tasklist_id : String) :
    Option (FfiCommand × String) := do
  let task_id ← extract_task_id_from_path file_path
  let todo_id := task_todo_id tasklist_id task_id
  some (delete_todo_command todo_id, task_id)

/-- Guidance placeholder todo ids (`GUIDANCE_IDS` from `guidance.rs`). -/
def GUIDANCE_IDS : List String :=
  ["claude-guidance-header", "claude-guidance-no-tasklist",
   "claude-guidance-start-claude", "claude-guidance-no-tasks",
   "claude-guidance-tasks-appear", "claude-guidance-waiting-header",
   "claude-error-header", "claude-error-detail", "claude-error-action"]

/-- `clear_guidance` from `guidance.rs`: a delete for every placeholder id. -/
def clear_guidance : List FfiCommand :=
  GUIDANCE_IDS.map FfiCommand.DeleteTodo

/-- `SyncEvent` from `state.rs`. -/
inductive SyncEvent where
  | FileChanged (path : Path)
  | FileRemoved (path : Path)
  | InitialScan
  deriving DecidableEq

/-- `GuidanceState` from `state.rs`. -/
inductive GuidanceState where
  | None
  | NoTasklists
  | EmptyTasklist
  | Error
  deriving DecidableEq

/-- `SyncState` from `state.rs`, restricted to the fields the event loop
reads or writes. `selected_tasklist` is modelled directly as the derived
tasklist id (in the source it is the directory path whose file name is the
id); the config is modelled by `Env.get_alias`; `header_todo_id` and
`pending_commands` are not touched by the embedded functions. -/
structure SyncState where
  selected_tasklist : Option String
  known_tasks : List String
  staleness_tracker : StalenessTracker
  guidance_state : GuidanceState
  guidance_shown : Bool

/-- `SyncState::mark_task_known`. -/
def mark_task_known (s : SyncState) (task_id : String) : SyncState :=
  SyncState.mk s.selected_tasklist (insertIfAbsent task_id s.known_tasks)
    s.staleness_tracker s.guidance_state s.guidance_shown

/-- `SyncState::forget_task`. -/
def forget_task (s : SyncState) (task_id : String) : SyncState :=
  SyncState.mk s.selected_tasklist (s.known_tasks.erase task_id)
    s.staleness_tracker s.guidance_state s.guidance_shown

/-- `SyncState::clear_known_tasks`. -/
def clear_known_tasks (s : SyncState) : SyncState :=
  SyncState.mk s.selected_tasklist [] s.staleness_tracker s.guidance_state
    s.guidance_shown

/-- `SyncState::clear_guidance`. -/
def clear_guidance_state (s : SyncState) : SyncState :=
  SyncState.mk s.selected_tasklist s.known_tasks s.staleness_tracker
    GuidanceState.None false

/-- Record a staleness touch on the state (the
`state.staleness_tracker.record_update()` call of the event loop). -/
def touch_staleness (env : Env) (s : SyncState) : SyncState :=
  SyncState.mk s.selected_tasklist s.known_tasks
    (record_update env.now s.staleness_tracker) s.guidance_state
    s.guidance_shown

/-- The body of the per-event loop of `process_sync_events_local` in
`lib.rs`: returns the commands contributed by this event and the updated
state. `InitialScan` replays the full scan and replaces the known set;
`FileChanged` consults the known set to choose update versus create and marks
new ids known; `FileRemoved` always emits the delete and forgets the id. -/
def process_one_event (env : Env) (tasklist_id : String) (s : SyncState)
    (event : SyncEvent) : List FfiCommand × SyncState :=
  match event with
  | SyncEvent.InitialScan =>
    let aliasName := env.get_alias tasklist_id
    let scanned := process_initial_scan_local env.dir tasklist_id aliasName
    let s := clear_known_tasks s
    let s := scanned.2.foldl (fun st id => mark_task_known st id) s
    (scanned.1, s)
  | SyncEvent.FileChanged path =>
    let is_known := (path.stem.map (fun id => s.known_tasks.contains id)).getD false
    match process_file_change_local env path tasklist_id is_known with
    | some (cmds, task_id) =>
        (cmds, if is_known then s else mark_task_known s task_id)
    | none => ([], s)
  | SyncEvent.FileRemoved path =>
    match process_file_removal_local path tasklist_id with
    | some (cmd, task_id) => ([cmd], forget_task s task_id)
    | none => ([], s)

/-- The `for event in events` loop of `process_sync_events_local`, threading
the state and concatenating the per-event command outputs in order. -/
def process_events (env : Env) (tasklist_id : String) (s : SyncState) :
    List SyncEvent → List FfiCommand × SyncState
  | [] => ([], s)
  | e :: rest =>
    let step := process_one_event env tasklist_id s e
    let tail := process_events env tasklist_id step.2 rest
    (step.1 ++ tail.1, tail.2)

/-- `process_sync_events_local` from `lib.rs`: no selected tasklist means no
work; a non-empty drained batch records a staleness touch; a batch containing
a `FileChanged` event while guidance is shown prepends the guidance-clearing
deletes and resets the guidance state; then the events are processed in
drain order. -/
def process_sync_events_local (env : Env) (s : SyncState)
    (events : List SyncEvent) : List FfiCommand × SyncState :=
  match s.selected_tasklist with
  | none => ([], s)
  | some tasklist_id =>
    let s := if events.isEmpty then s else touch_staleness env s
    let has_file_changed := events.any
      (fun e => match e with | SyncEvent.FileChanged _ => true | _ => false)
    let should_clear := s.guidance_shown && has_file_changed
    let pre := if should_clear then clear_guidance else []
    let s := if should_clear then clear_guidance_state s else s
    let rest := process_events env tasklist_id s events
    (pre ++ rest.1, rest.2)

/-- The temp id of a create operation, when there is one. -/
def cmd_temp_id : FfiCommand → Option String
  | FfiCommand.CreateTodo _ _ t _ _ => t
  | _ => none

/-! ## Helper lemmas -/

theorem string_append_right_cancel (s a b : String) (h : s ++ a = s ++ b) :
    a = b := by
  have hd : (s ++ a).data = (s ++ b).data := by rw [h]
  simp [String.data_append] at hd
  exact String.ext hd

theorem task_todo_id_injective (tid a b : String) (h : a ≠ b) :
    task_todo_id tid a ≠ task_todo_id tid b := by
  intro he
  exact h (string_append_right_cancel ("claude-" ++ tid ++ "-") a b he)

theorem task_le_trans (a b c : ClaudeTask) (h1 : task_le a b = true)
    (h2 : task_le b c = true) : task_le a c = true := by
  simp only [task_le, decide_eq_true_eq] at *
  omega

theorem task_le_total (a b : ClaudeTask) : (task_le a b || task_le b a) = true := by
  simp only [task_le, Bool.or_eq_true, decide_eq_true_eq]
  omega

theorem mark_known_foldl_guidance (ids : List String) (s : SyncState) :
    ((ids.foldl (fun st id => mark_task_known st id) s)).guidance_state
        = s.guidance_state ∧
    ((ids.foldl (fun st id => mark_task_known st id) s)).guidance_shown
        = s.guidance_shown := by
  induction ids generalizing s with
  | nil => exact ⟨rfl, rfl⟩
  | cons i rest ih => exact (ih (mark_task_known s i))

theorem process_one_event_guidance (env : Env) (tid : String) (s : SyncState)
    (e : SyncEvent) :
    ((process_one_event env tid s e).2).guidance_state = s.guidance_state ∧
    ((process_one_event env tid s e).2).guidance_shown = s.guidance_shown := by
  cases e with
  | InitialScan =>
    simpa [process_one_event, clear_known_tasks] using
      mark_known_foldl_guidance
        (process_initial_scan_local env.dir tid (env.get_alias tid)).2
        (clear_known_tasks s)
  | FileChanged p =>
    simp only [process_one_event]
    cases h : process_file_change_local env p tid
        ((p.stem.map (fun id => s.known_tasks.contains id)).getD false) with
    | none => exact ⟨rfl, rfl⟩
    | some v =>
      cases hk : (p.stem.map (fun id => s.known_tasks.contains id)).getD false <;>
        simp [hk, mark_task_known]
  | FileRemoved p =>
    simp only [process_one_event]
    cases h : process_file_removal_local p tid with
    | none => exact ⟨rfl, rfl⟩
    | some v => simp [forget_task]

theorem process_events_guidance (env : Env) (tid : String)
    (events : List SyncEvent) (s : SyncState) :
    ((process_events env tid s events).2).guidance_state = s.guidance_state ∧
    ((process_events env tid s events).2).guidance_shown = s.guidance_shown := by
  induction events generalizing s with
  | nil => exact ⟨rfl, rfl⟩
  | cons e rest ih =>
    have h1 := process_one_event_guidance env tid s e
    have h2 := ih (process_one_event env tid s e).2
    simp only [process_events]
    exact ⟨h2.1.trans h1.1, h2.2.trans h1.2⟩

theorem removal_mem_process_events (env : Env) (tid : String)
    (events : List SyncEvent) (s : SyncState) (p : Path) (id : String)
    (hstem : p.stem = some id) (hmem : SyncEvent.FileRemoved p ∈ events) :
    FfiCommand.DeleteTodo (task_todo_id tid id) ∈
      (process_events env tid s events).1 := by
  induction events generalizing s with
  | nil => cases hmem
  | cons e rest ih =>
    simp only [process_events]
    rcases List.mem_cons.mp hmem with he | hrest
    · subst he
      apply List.mem_append_left
      simp [process_one_event, process_file_removal_local,
        extract_task_id_from_path, hstem, delete_todo_command]
    · exact List.mem_append_right _ (ih _ hrest)

theorem process_sync_events_shape (env : Env) (s : SyncState) (tid : String)
    (events : List SyncEvent) (h : s.selected_tasklist = some tid) :
    ∃ pre s',
      process_sync_events_local env s events =
        (pre ++ (process_events env tid s' events).1,
          (process_events env tid s' events).2) := by
  simp only [process_sync_events_local, h]
  exact ⟨_, _, rfl⟩

/-! ## Claim theorems -/

/-- C1 (counterexample): the spec's id scheme, taken literally, is false on
the code: for source id "a" and task id "1" the header id is not
"header-a" and the item id is not "a-1". -/
theorem C1_counterexample :
    header_id "a" ≠ "header-a" ∧ task_todo_id "a" "1" ≠ "a-1" := by
  constructor <;> decide

/-- C1 (amended, proved): the deterministic ids carry a "claude-" prefix:
the header id is `claude-header-<source_id>` and the item id is
`claude-<source_id>-<task_id>`; the create path addresses both of its
operations by exactly that item id. -/
theorem C1_amended_id_scheme (s t hdr : String) (task : ClaudeTask) :
    header_id s = "claude-header-" ++ s ∧
    task_todo_id s t = "claude-" ++ s ++ "-" ++ t ∧
    create_todo_commands task s hdr =
      [FfiCommand.CreateTodo (format_task_content task) (some hdr)
          (some (task_todo_id s task.id)) (map_status_to_state task.status) 1,
        FfiCommand.SetTodoMetadata (task_todo_id s task.id)
          (build_metadata_json s task.id task.blocked_by) false] := by
  exact ⟨rfl, rfl, rfl⟩

/-- C8: the status-to-visual-state mapping sends "pending" to Empty,
"in_progress" to InProgress, "completed" to Checked, and every other string
to Empty. -/
theorem C8_status_state_mapping :
    map_status_to_state "pending" = FfiTodoState.Empty ∧
    map_status_to_state "in_progress" = FfiTodoState.InProgress ∧
    map_status_to_state "completed" = FfiTodoState.Checked ∧
    ∀ s : String, s ≠ "pending" → s ≠ "in_progress" → s ≠ "completed" →
      map_status_to_state s = FfiTodoState.Empty := by
  refine ⟨rfl, rfl, rfl, ?_⟩
  intro s h1 h2 h3
  simp [map_status_to_state, h1, h2, h3]

/-- C8 (witness): the unrecognized status "unknown" maps to Empty. -/
theorem C8_witness :
    ("unknown" : String) ≠ "pending" ∧
    map_status_to_state "unknown" = FfiTodoState.Empty :=
  ⟨by decide, C8_status_state_mapping.2.2.2 "unknown" (by decide) (by decide)
    (by decide)⟩

/-- C7: a staleness tracker on which no update was ever recorded reports no
staleness at any instant; a tracker with threshold 0 reports stale (with the
elapsed duration) on every check after a recorded update once any positive
time has elapsed. -/
theorem C7_staleness_transitions :
    (∀ (tr : StalenessTracker) (now : Nat), tr.last_update = none →
      check_staleness now tr = none) ∧
    (∀ (tr : StalenessTracker) (t0 now : Nat), tr.threshold = 0 → t0 < now →
      check_staleness now (record_update t0 tr) = some (now - t0)) := by
  constructor
  · intro tr now h
    simp [check_staleness, h]
  · intro tr t0 now hthr helapsed
    have hgt : now - t0 > tr.threshold := by omega
    simp [check_staleness, record_update, hgt]

/-- C7 (witness): a fresh threshold-0 tracker is not stale while untracked,
and is stale 2 time units after an update recorded at instant 3. -/
theorem C7_witness :
    (StalenessTracker.new 0).last_update = none ∧
    check_staleness 5 (StalenessTracker.new 0) = none ∧
    (StalenessTracker.new 0).threshold = 0 ∧ 3 < 5 ∧
    check_staleness 5 (record_update 3 (StalenessTracker.new 0)) = some 2 :=
  ⟨rfl, C7_staleness_transitions.1 (StalenessTracker.new 0) 5 rfl, rfl,
    by decide, C7_staleness_transitions.2 (StalenessTracker.new 0) 3 5 rfl
      (by decide)⟩

/-- C3: evaluation of the cycle detector at the claim's inputs. For the
two-node cycle (A blockedBy B, B blockedBy A) both nodes are marked cyclic,
as the claim states. For the three-node cycle (A blockedBy B, B blockedBy C,
C blockedBy A) the claim fails on the code: only the two endpoints of the
single back edge (C and A) are marked; B is not marked cyclic and instead
receives an ordinary "(blocked by: Task C)" annotation. This contradicts
`dfs_cycle`'s own documentation ("Marks all nodes in cycle"), so the claim
is recorded as a code bug. -/
theorem C3_cycle_marking_evaluation :
    (detect_cycles
        [ClaudeTask.mk "A" "Task A" "" "" "pending" [] ["B"],
         ClaudeTask.mk "B" "Task B" "" "" "pending" [] ["A"]]).contains "A"
      = true ∧
    (detect_cycles
        [ClaudeTask.mk "A" "Task A" "" "" "pending" [] ["B"],
         ClaudeTask.mk "B" "Task B" "" "" "pending" [] ["A"]]).contains "B"
      = true ∧
    (detect_cycles
        [ClaudeTask.mk "A" "Task A" "" "" "pending" [] ["B"],
         ClaudeTask.mk "B" "Task B" "" "" "pending" [] ["C"],
         ClaudeTask.mk "C" "Task C" "" "" "pending" [] ["A"]]).contains "A"
      = true ∧
    (detect_cycles
        [ClaudeTask.mk "A" "Task A" "" "" "pending" [] ["B"],
         ClaudeTask.mk "B" "Task B" "" "" "pending" [] ["C"],
         ClaudeTask.mk "C" "Task C" "" "" "pending" [] ["A"]]).contains "C"
      = true ∧
    (detect_cycles
        [ClaudeTask.mk "A" "Task A" "" "" "pending" [] ["B"],
         ClaudeTask.mk "B" "Task B" "" "" "pending" [] ["C"],
         ClaudeTask.mk "C" "Task C" "" "" "pending" [] ["A"]]).contains "B"
      = false ∧
    TaskHierarchy.annotation_for
      (build_hierarchy
        [ClaudeTask.mk "A" "Task A" "" "" "pending" [] ["B"],
         ClaudeTask.mk "B" "Task B" "" "" "pending" [] ["C"],
         ClaudeTask.mk "C" "Task C" "" "" "pending" [] ["A"]]) "B"
      = some "(blocked by: Task C)" := by
  refine ⟨?_, ?_, ?_, ?_, ?_, ?_⟩ <;> decide

/-- C5: the Source Reader contract. A non-existent directory yields the
empty list; otherwise the scan returns exactly the well-formed records
(non-json and unparseable entries skipped, never an error), sorted by
ascending numeric task id with non-numeric ids keyed as 0, and the sort is
stable (for every key value, the records with that key appear in their
original directory order). -/
theorem C5_scan_contract :
    scan_tasks_directory none = [] ∧
    (∀ entries : List DirEntry,
      List.Pairwise (fun a b : ClaudeTask => sort_key a.id ≤ sort_key b.id)
        (scan_tasks_directory (some entries))) ∧
    (∀ entries : List DirEntry,
      (scan_tasks_directory (some entries)).Perm (well_formed_tasks entries)) ∧
    (∀ (entries : List DirEntry) (k : Nat),
      (scan_tasks_directory (some entries)).filter
          (fun t => decide (sort_key t.id = k))
        = (well_formed_tasks entries).filter
          (fun t => decide (sort_key t.id = k))) := by
  refine ⟨rfl, ?_, ?_, ?_⟩
  · intro entries
    have h := List.sorted_mergeSort task_le_trans task_le_total
      (well_formed_tasks entries)
    have h2 : List.Pairwise
        (fun a b : ClaudeTask => sort_key a.id ≤ sort_key b.id)
        ((well_formed_tasks entries).mergeSort task_le) :=
      h.imp (fun hab => by simpa [task_le] using hab)
    simpa [scan_tasks_directory] using h2
  · intro entries
    simpa [scan_tasks_directory] using
      List.mergeSort_perm (well_formed_tasks entries) task_le
  · intro entries k
    have hsub : List.Sublist
        ((well_formed_tasks entries).filter
          (fun t => decide (sort_key t.id = k)))
        (well_formed_tasks entries) :=
      List.filter_sublist _
    have hpw : List.Pairwise (fun a b : ClaudeTask => task_le a b = true)
        ((well_formed_tasks entries).filter
          (fun t => decide (sort_key t.id = k))) := by
      apply List.pairwise_of_forall_mem_list
      intro a ha b hb
      have hak : sort_key a.id = k := by
        simpa using List.of_mem_filter ha
      have hbk : sort_key b.id = k := by
        simpa using List.of_mem_filter hb
      simp [task_le, hak, hbk]
    have hsub2 : List.Sublist
        ((well_formed_tasks entries).filter
          (fun t => decide (sort_key t.id = k)))
        ((well_formed_tasks entries).mergeSort task_le) :=
      List.sublist_mergeSort task_le_trans task_le_total hpw hsub
    have hsub3 : List.Sublist
        ((well_formed_tasks entries).filter
          (fun t => decide (sort_key t.id = k)))
        (((well_formed_tasks entries).mergeSort task_le).filter
          (fun t => decide (sort_key t.id = k))) := by
      have h := List.Sublist.filter (fun t => decide (sort_key t.id = k)) hsub2
      simpa [List.filter_filter] using h
    have hlen : (((well_formed_tasks entries).mergeSort task_le).filter
          (fun t => decide (sort_key t.id = k))).length
        = ((well_formed_tasks entries).filter
          (fun t => decide (sort_key t.id = k))).length :=
      ((List.mergeSort_perm (well_formed_tasks entries) task_le).filter
        _).length_eq
    have heq := hsub3.eq_of_length hlen.symm
    simpa [scan_tasks_directory] using heq.symm

/-- C9: the full-scan create path addresses its operations by the
deterministic id built from the record's `id` field, while the incremental
change and removal paths address theirs by the id built from the filename
stem; when the stem differs from the record's `id` field the two paths
target different correlation ids for the same file. -/
theorem C9_scan_vs_incremental_ids (env : Env) (tid hdr stem : String)
    (p : Path) (task task2 : ClaudeTask) (hier : TaskHierarchy)
    (hstem : p.stem = some stem) (hne : task.id ≠ stem)
    (hread : env.read_task p = some task2) :
    ((create_todo_commands_with_hierarchy task tid hdr hier).head?.bind
        cmd_temp_id) = some (task_todo_id tid task.id) ∧
    process_file_change_local env p tid true
        = some ([update_todo_command task2 (task_todo_id tid stem)], stem) ∧
    process_file_removal_local p tid
        = some (delete_todo_command (task_todo_id tid stem), stem) ∧
    task_todo_id tid task.id ≠ task_todo_id tid stem := by
  refine ⟨?_, ?_, ?_, task_todo_id_injective tid _ _ hne⟩
  · simp [create_todo_commands_with_hierarchy, cmd_temp_id, task_todo_id]
  · simp [process_file_change_local, extract_task_id_from_path, hstem, hread,
      task_todo_id]
  · simp [process_file_removal_local, extract_task_id_from_path, hstem]

/-- C9 (witness): for file stem "7" holding a record with id "9", the
removal path deletes `claude-t-7` while the scan path would create
`claude-t-9`. -/
theorem C9_witness :
    (Path.mk (some "7")).stem = some "7" ∧
    ("9" : String) ≠ "7" ∧
    task_todo_id "t" "9" ≠ task_todo_id "t" "7" ∧
    process_file_removal_local (Path.mk (some "7")) "t"
      = some (delete_todo_command (task_todo_id "t" "7"), "7") := by
  have h := C9_scan_vs_incremental_ids
    (Env.mk none
      (fun _ => some (ClaudeTask.mk "9" "Subj" "" "" "pending" [] []))
      (fun _ _ => none) (fun _ => none) 0)
    "t" "hdr" "7" (Path.mk (some "7"))
    (ClaudeTask.mk "9" "Subj" "" "" "pending" [] [])
    (ClaudeTask.mk "9" "Subj" "" "" "pending" [] [])
    (TaskHierarchy.mk [] []) rfl (by decide) rfl
  exact ⟨rfl, by decide, h.2.2.2, h.2.2.1⟩

/-- C2 (counterexample): running the full scan a second time with the
Correlation State carried over from the first run does not produce zero
operations. Concretely: a directory with one well-formed record `1.json`,
after a first run that left `known_tasks = ["1"]`, still emits a non-empty
command list on the second `InitialScan`. -/
theorem C2_counterexample :
    (process_sync_events_local
        (Env.mk
          (some [DirEntry.mk true
            (some (ClaudeTask.mk "1" "Task one" "" "" "pending" [] []))])
          (fun _ => none) (fun _ _ => none) (fun _ => none) 5)
        (SyncState.mk (some "t") ["1"]
          (StalenessTracker.mk (some 0) 900000000000) GuidanceState.None false)
        [SyncEvent.InitialScan]).1 ≠ [] := by
  simp [process_sync_events_local, process_events, process_one_event,
    process_initial_scan_local]

/-- C2 (amended, proved): re-running the full scan replays the entire
operation list of the first run rather than producing zero operations: the
scan-based path never consults the carried-over Correlation State (its
output depends only on the directory contents), and its output always
contains at least the header create, hence is never empty. -/
theorem C2_second_scan_replays (env : Env) (s : SyncState) (tid : String)
    (hsel : s.selected_tasklist = some tid) :
    (process_sync_events_local env s [SyncEvent.InitialScan]).1
        = (process_initial_scan_local env.dir tid (env.get_alias tid)).1 ∧
    (process_initial_scan_local env.dir tid (env.get_alias tid)).1 ≠ [] := by
  constructor
  · simp [process_sync_events_local, hsel, process_events, process_one_event]
  · simp [process_initial_scan_local]

/-- C2 (witness): the amended statement evaluated on the concrete
one-record directory with carried-over state. -/
theorem C2_witness :
    (SyncState.mk (some "t") ["1"]
        (StalenessTracker.mk (some 0) 900000000000) GuidanceState.None
        false).selected_tasklist = some "t" ∧
    ((process_sync_events_local
        (Env.mk
          (some [DirEntry.mk true
            (some (ClaudeTask.mk "1" "Task one" "" "" "pending" [] []))])
          (fun _ => none) (fun _ _ => none) (fun _ => none) 5)
        (SyncState.mk (some "t") ["1"]
          (StalenessTracker.mk (some 0) 900000000000) GuidanceState.None false)
        [SyncEvent.InitialScan]).1
      = (process_initial_scan_local
          (some [DirEntry.mk true
            (some (ClaudeTask.mk "1" "Task one" "" "" "pending" [] []))])
          "t" none).1 ∧
      (process_initial_scan_local
          (some [DirEntry.mk true
            (some (ClaudeTask.mk "1" "Task one" "" "" "pending" [] []))])
          "t" none).1 ≠ []) :=
  ⟨rfl, C2_second_scan_replays
    (Env.mk
      (some [DirEntry.mk true
        (some (ClaudeTask.mk "1" "Task one" "" "" "pending" [] []))])
      (fun _ => none) (fun _ _ => none) (fun _ => none) 5)
    (SyncState.mk (some "t") ["1"]
      (StalenessTracker.mk (some 0) 900000000000) GuidanceState.None false)
    "t" rfl⟩

/-- C4 (counterexample): on the known-id incremental path an update is
emitted even when content and state both already match. The parsed record
("Subject", pending) matches the mirrored item ("Subject", Empty) — so
`needs_update` is false — yet processing the `FileChanged` event for the
known id "1" emits an `UpdateTodo`. -/
theorem C4_counterexample :
    needs_update (ClaudeTask.mk "1" "Subject" "" "" "pending" [] [])
        (FfiTodoItem.mk "claude-t-1" "Subject" FfiTodoState.Empty) = false ∧
    (process_sync_events_local
        (Env.mk none
          (fun _ => some (ClaudeTask.mk "1" "Subject" "" "" "pending" [] []))
          (fun _ _ => none) (fun _ => none) 5)
        (SyncState.mk (some "t") ["1"] (StalenessTracker.mk none 900000000000)
          GuidanceState.None false)
        [SyncEvent.FileChanged (Path.mk (some "1"))]).1
      = [update_todo_command
          (ClaudeTask.mk "1" "Subject" "" "" "pending" [] [])
          (task_todo_id "t" "1")] := by
  constructor
  · decide
  · decide

/-- C4 (amended, proved): content/state diff-gating of updates happens only
on the HostApi-backed change path: there, when an existing mirrored todo is
found whose content equals the record's subject and whose state equals the
record's mapped status, no operation is emitted. The local known-id path
instead emits one `UpdateTodo` unconditionally for every known id. -/
theorem C4_update_gating :
    (∀ (env : Env) (p : Path) (tid task_id : String) (task : ClaudeTask)
        (todo : FfiTodoItem),
      extract_task_id_from_path p = some task_id →
      env.read_task p = some task →
      env.find_todo tid task_id = some todo →
      todo.content = task.subject →
      todo.state = map_status_to_state task.status →
      process_file_change env p tid = []) ∧
    (∀ (env : Env) (p : Path) (tid task_id : String) (task : ClaudeTask),
      extract_task_id_from_path p = some task_id →
      env.read_task p = some task →
      process_file_change_local env p tid true
        = some ([update_todo_command task (task_todo_id tid task_id)],
            task_id)) := by
  constructor
  · intro env p tid task_id task todo h1 h2 h3 h4 h5
    have hnu : needs_update task todo = false := by
      simp [needs_update, h4, h5]
    simp [process_file_change, h1, h2, h3, hnu]
  · intro env p tid task_id task h1 h2
    simp [process_file_change_local, h1, h2]

/-- C4 (witness): the HostApi-backed path emits nothing for a matching
record/item pair. -/
theorem C4_witness :
    (Env.mk none
        (fun _ => some (ClaudeTask.mk "1" "Subject" "" "" "pending" [] []))
        (fun _ _ => some (FfiTodoItem.mk "claude-t-1" "Subject"
          FfiTodoState.Empty))
        (fun _ => none) 5).find_todo "t" "1"
      = some (FfiTodoItem.mk "claude-t-1" "Subject" FfiTodoState.Empty) ∧
    process_file_change
      (Env.mk none
        (fun _ => some (ClaudeTask.mk "1" "Subject" "" "" "pending" [] []))
        (fun _ _ => some (FfiTodoItem.mk "claude-t-1" "Subject"
          FfiTodoState.Empty))
        (fun _ => none) 5)
      (Path.mk (some "1")) "t" = [] :=
  ⟨rfl, C4_update_gating.1
    (Env.mk none
      (fun _ => some (ClaudeTask.mk "1" "Subject" "" "" "pending" [] []))
      (fun _ _ => some (FfiTodoItem.mk "claude-t-1" "Subject"
        FfiTodoState.Empty))
      (fun _ => none) 5)
    (Path.mk (some "1")) "t" "1"
    (ClaudeTask.mk "1" "Subject" "" "" "pending" [] [])
    (FfiTodoItem.mk "claude-t-1" "Subject" FfiTodoState.Empty)
    rfl rfl rfl rfl (by decide)⟩

/-- C6: on any state satisfying the shown/mode coupling maintained by the
source's `set_guidance`/`clear_guidance` (guidance is shown exactly when the
mode is not `None`), if the mode is not `None` and the drained batch
contains at least one `FileChanged` event, then processing the batch resets
the guidance mode to `None` and emits a delete operation for every
placeholder guidance id in the fixed set `GUIDANCE_IDS`. -/
theorem C6_guidance_cleared_on_change (env : Env) (s : SyncState)
    (events : List SyncEvent) (tid : String)
    (hsel : s.selected_tasklist = some tid)
    (hcoupled : s.guidance_shown = true ↔
      s.guidance_state ≠ GuidanceState.None)
    (hmode : s.guidance_state ≠ GuidanceState.None)
    (hchanged : ∃ p, SyncEvent.FileChanged p ∈ events) :
    (process_sync_events_local env s events).2.guidance_state
        = GuidanceState.None ∧
    ∀ gid ∈ GUIDANCE_IDS,
      FfiCommand.DeleteTodo gid ∈ (process_sync_events_local env s events).1 := by
  obtain ⟨p, hp⟩ := hchanged
  have hshown : s.guidance_shown = true := hcoupled.mpr hmode
  have hne : events ≠ [] := by
    intro h
    rw [h] at hp
    cases hp
  have hemp : events.isEmpty = false := List.isEmpty_eq_false.mpr hne
  have hany : events.any
      (fun e => match e with
        | SyncEvent.FileChanged _ => true
        | _ => false) = true :=
    List.any_eq_true.mpr ⟨SyncEvent.FileChanged p, hp, rfl⟩
  have key : process_sync_events_local env s events
      = (clear_guidance ++ (process_events env tid
            (clear_guidance_state (touch_staleness env s)) events).1,
          (process_events env tid
            (clear_guidance_state (touch_staleness env s)) events).2) := by
    simp [process_sync_events_local, hsel, hemp, hany, touch_staleness, hshown,
      clear_guidance_state]
  rw [key]
  constructor
  · exact (process_events_guidance env tid events
      (clear_guidance_state (touch_staleness env s))).1.trans rfl
  · intro gid hgid
    exact List.mem_append_left _ (List.mem_map_of_mem FfiCommand.DeleteTodo hgid)

/-- C6 (witness): a state in `EmptyTasklist` guidance mode processing a
single `FileChanged` event ends in mode `None` and deletes the placeholder
items (checked here on the error-action placeholder id). -/
theorem C6_witness :
    (process_sync_events_local
        (Env.mk none (fun _ => none) (fun _ _ => none) (fun _ => none) 5)
        (SyncState.mk (some "t") [] (StalenessTracker.mk none 0)
          GuidanceState.EmptyTasklist true)
        [SyncEvent.FileChanged (Path.mk (some "1"))]).2.guidance_state
      = GuidanceState.None ∧
    FfiCommand.DeleteTodo "claude-error-action" ∈
      (process_sync_events_local
        (Env.mk none (fun _ => none) (fun _ _ => none) (fun _ => none) 5)
        (SyncState.mk (some "t") [] (StalenessTracker.mk none 0)
          GuidanceState.EmptyTasklist true)
        [SyncEvent.FileChanged (Path.mk (some "1"))]).1 := by
  have h := C6_guidance_cleared_on_change
    (Env.mk none (fun _ => none) (fun _ _ => none) (fun _ => none) 5)
    (SyncState.mk (some "t") [] (StalenessTracker.mk none 0)
      GuidanceState.EmptyTasklist true)
    [SyncEvent.FileChanged (Path.mk (some "1"))] "t" rfl (by decide)
    (by decide)
    ⟨Path.mk (some "1"), List.mem_singleton_self _⟩
  exact ⟨h.1, h.2 "claude-error-action" (by decide)⟩

/-- C10: for every `FileRemoved` event on a path with an extractable stem, a
delete addressed by the deterministic correlation id is emitted — with no
hypothesis whatsoever on `known_tasks`, showing removal processing never
consults the known-id set. -/
theorem C10_removal_without_known_check (env : Env) (s : SyncState)
    (events : List SyncEvent) (tid : String) (p : Path) (id : String)
    (hsel : s.selected_tasklist = some tid) (hstem : p.stem = some id)
    (hmem : SyncEvent.FileRemoved p ∈ events) :
    FfiCommand.DeleteTodo (task_todo_id tid id)
      ∈ (process_sync_events_local env s events).1 := by
  obtain ⟨pre, s', hkey⟩ := process_sync_events_shape env s tid events hsel
  rw [hkey]
  exact List.mem_append_right _
    (removal_mem_process_events env tid events s' p id hstem hmem)

/-- C10 (witness): a removal of `9.json` while "9" was never in the known
set (the known set is empty) still emits the delete for `claude-t-9`. -/
theorem C10_witness :
    (SyncState.mk (some "t") [] (StalenessTracker.mk none 0)
        GuidanceState.None false).known_tasks = [] ∧
    FfiCommand.DeleteTodo (task_todo_id "t" "9") ∈
      (process_sync_events_local
        (Env.mk none (fun _ => none) (fun _ _ => none) (fun _ => none) 5)
        (SyncState.mk (some "t") [] (StalenessTracker.mk none 0)
          GuidanceState.None false)
        [SyncEvent.FileRemoved (Path.mk (some "9"))]).1 :=
  ⟨rfl, C10_removal_without_known_check
    (Env.mk none (fun _ => none) (fun _ _ => none) (fun _ => none) 5)
    (SyncState.mk (some "t") [] (StalenessTracker.mk none 0)
      GuidanceState.None false)
    [SyncEvent.FileRemoved (Path.mk (some "9"))] "t" (Path.mk (some "9")) "9"
    rfl rfl (List.mem_singleton_self _)⟩

end ClaudeTasks
